import Mathlib

/-!
Verification of the attendance tracker's record store and rules/aggregation
engine (storage layer and route handlers), as a shallow embedding.

Conventions of the embedding:
* Calendar dates are `Date` triples (year, month, day); the source keeps them
  as ISO `YYYY-MM-DD` strings, whose lexicographic order coincides with the
  field-lexicographic order used here (for valid zero-padded dates).
* Timestamps are split into the pieces the handlers actually read from the
  single clock value `now = new Date()`: the local calendar date
  (`getStartOfDay`), the second-of-day (from which `getHours`/`getMinutes`
  derive), and the epoch-millisecond reading (`getTime`).
* JS numbers are modelled as `Nat`/`Int`/`ℚ` (exact arithmetic).
* `Map` iteration (`Array.from(map.values())`) follows insertion order, so the
  in-memory store is a `List` to which `set` with a fresh key appends.
* `Array.prototype.sort` is a stable sort; it is modelled by the stable
  `List.insertionSort`.
-/

/-- Attendance status enum: `"present" | "absent" | "late" | "half-day"`. -/
inductive Status where
  | present
  | absent
  | late
  | halfDay
deriving DecidableEq, Repr

/-- A calendar date, as carried by the `date : string` field (`YYYY-MM-DD`). -/
structure Date where
  year : Nat
  month : Nat
  day : Nat
deriving DecidableEq, Repr

/-- Order on dates: lexicographic on (year, month, day), which is what both
the ISO-string comparisons (`>=`, `<=`) and the epoch-millisecond comparison
in the sort callback compute on valid dates. -/
def Date.le (a b : Date) : Bool :=
  if a.year = b.year then
    if a.month = b.month then decide (a.day ≤ b.day)
    else decide (a.month < b.month)
  else decide (a.year < b.year)

/-- Leap-year rule of the Gregorian calendar (as implemented by JS `Date`). -/
def isLeapYear (y : Nat) : Bool :=
  (y % 4 == 0 && y % 100 != 0) || y % 400 == 0

/-- Number of days in month `m` (1-12) of year `y`. -/
def daysInMonth (y m : Nat) : Nat :=
  if m = 2 then (if isLeapYear y then 29 else 28)
  else if m = 4 ∨ m = 6 ∨ m = 9 ∨ m = 11 then 30
  else 31

/-- Number of days in year `y`. -/
def daysInYear (y : Nat) : Nat :=
  if isLeapYear y then 366 else 365

/-- Days elapsed from 1970-01-01 to the given date (dates from 1970 on). -/
def daysSinceEpoch (d : Date) : Nat :=
  ((List.range (d.year - 1970)).foldl (fun acc i => acc + daysInYear (1970 + i)) 0)
    + ((List.range (d.month - 1)).foldl (fun acc i => acc + daysInMonth d.year (i + 1)) 0)
    + (d.day - 1)

/-- JS `Date.prototype.getDay`: 0 = Sunday, ..., 6 = Saturday.
1970-01-01 was a Thursday (= 4). -/
def jsGetDay (d : Date) : Nat :=
  (daysSinceEpoch d + 4) % 7

/-- Source `getWorkingDaysInMonth`: count of days of the month whose weekday is
neither Sunday (0) nor Saturday (6). -/
def getWorkingDaysInMonth (y m : Nat) : Nat :=
  ((List.range (daysInMonth y m)).filter (fun i =>
    let day := jsGetDay ⟨y, m, i + 1⟩
    day != 0 && day != 6)).length

/-- The current-month working-day count: `for (d = 1; d <= today.getDate(); d++)`
counting weekdays only (used by my-summary, the employee dashboard and the
manager dashboard's department rollup). -/
def workingDaysUpTo (y m todayDay : Nat) : Nat :=
  ((List.range todayDay).filter (fun i =>
    let day := jsGetDay ⟨y, m, i + 1⟩
    day != 0 && day != 6)).length

/-- User role enum. -/
inductive Role where
  | employee
  | manager
deriving DecidableEq, Repr

/-- A user, restricted to the fields the verified operations read. -/
structure User where
  id : Nat
  role : Role
  department : String
deriving DecidableEq, Repr

/-- An attendance record.  `checkInTime`/`checkOutTime` are epoch-millisecond
timestamps (the source stores ISO strings and converts back with
`new Date(...).getTime()`); `totalHours` is the stored decimal. -/
structure Attendance where
  id : Nat
  userId : Nat
  date : Date
  checkInTime : Option Int
  checkOutTime : Option Int
  status : Status
  totalHours : Option ℚ
deriving DecidableEq, Repr

/-- Shape `InsertAttendance`: the fields supplied to `createAttendance`. -/
structure InsertAttendance where
  userId : Nat
  date : Date
  checkInTime : Option Int
  checkOutTime : Option Int
  status : Status
  totalHours : Option ℚ
deriving DecidableEq, Repr

/-- The record built by `createAttendance` from an insert plus a fresh id
(the source uses `randomUUID()`; ids here are naturals issued by a counter,
which models the uniqueness of fresh UUIDs). -/
def mkAttendance (id : Nat) (ins : InsertAttendance) : Attendance :=
  ⟨id, ins.userId, ins.date, ins.checkInTime, ins.checkOutTime, ins.status, ins.totalHours⟩

/-- State of `MemStorage`: the attendance map in insertion order, plus the
fresh-id counter. -/
structure MemState where
  attendance : List Attendance
  nextId : Nat
deriving DecidableEq, Repr

/-- The empty in-memory store. -/
def memInit : MemState := ⟨[], 0⟩

namespace MemStorage

/-- Method `MemStorage.getAttendanceByUserAndDate`: first record matching both keys. -/
def getAttendanceByUserAndDate (s : MemState) (userId : Nat) (date : Date) :
    Option Attendance :=
  s.attendance.find? (fun a => decide (a.userId = userId ∧ a.date = date))

/-- Method `MemStorage.createAttendance`: unconditionally inserts a freshly-keyed
record into the map.  Note: no (userId, date) uniqueness check of any kind. -/
def createAttendance (s : MemState) (ins : InsertAttendance) :
    MemState × Attendance :=
  let a := mkAttendance s.nextId ins
  (⟨s.attendance ++ [a], s.nextId + 1⟩, a)

end MemStorage

/-- The partial update sent by the check-out handler to `updateAttendance`
(exactly the fields `checkOutTime`, `totalHours`, `status`). -/
structure AttendancePatch where
  checkOutTime : Int
  totalHours : ℚ
  status : Status
deriving DecidableEq, Repr

/-- Spread-merge `{ ...existing, ...updates }` for the check-out patch. -/
def applyPatch (a : Attendance) (p : AttendancePatch) : Attendance :=
  { a with
    checkOutTime := some p.checkOutTime
    totalHours := some p.totalHours
    status := p.status }

namespace MemStorage

/-- Method `MemStorage.updateAttendance`: look up by record id; `none` when the id is
unknown, otherwise merge the patch and store the merged record back under the
same key. -/
def updateAttendance (s : MemState) (id : Nat) (p : AttendancePatch) :
    Option (MemState × Attendance) :=
  match s.attendance.find? (fun a => decide (a.id = id)) with
  | none => none
  | some existing =>
    let updated := applyPatch existing p
    some (⟨s.attendance.map (fun a => if a.id = id then applyPatch a p else a),
           s.nextId⟩, updated)

end MemStorage

/-- The order imposed by the sort callback
`(a, b) => new Date(b.date).getTime() - new Date(a.date).getTime()`:
`a` may come before `b` when `a`'s date is at least `b`'s. -/
def dateDescRel (a b : Attendance) : Prop := Date.le b.date a.date = true

instance : DecidableRel dateDescRel :=
  fun a b => instDecidableEqBool (Date.le b.date a.date) true

/-- The sort callback orders records by date descending; JS `sort` is stable,
modelled by the stable `List.insertionSort`. -/
def sortByDateDesc (l : List Attendance) : List Attendance :=
  l.insertionSort dateDescRel

/-- The filter object accepted by `getAllAttendance`.  A `none` field models
an absent (or JS-falsy, e.g. empty-string) filter, which the source skips.
`fromDate`/`toDate` are the source's `from`/`to` (renamed: `from` is reserved). -/
structure AttFilters where
  employeeId : Option Nat
  date : Option Date
  status : Option Status
  fromDate : Option Date
  toDate : Option Date
deriving DecidableEq, Repr

/-- The conjunction of all supplied filters, matching the sequential filter
chain of `MemStorage.getAllAttendance`. -/
def matchesAll (f : AttFilters) (a : Attendance) : Bool :=
  (match f.employeeId with | some e => decide (a.userId = e) | none => true)
    && (match f.date with | some d => decide (a.date = d) | none => true)
    && (match f.status with | some st => decide (a.status = st) | none => true)
    && (match f.fromDate with | some lo => Date.le lo a.date | none => true)
    && (match f.toDate with | some hi => Date.le a.date hi | none => true)

namespace MemStorage

/-- Method `MemStorage.getAllAttendance`: apply each supplied filter in turn, then
sort by date descending. -/
def getAllAttendance (s : MemState) (f : AttFilters) : List Attendance :=
  let r0 := s.attendance
  let r1 := match f.employeeId with
    | some e => r0.filter (fun a => decide (a.userId = e))
    | none => r0
  let r2 := match f.date with
    | some d => r1.filter (fun a => decide (a.date = d))
    | none => r1
  let r3 := match f.status with
    | some st => r2.filter (fun a => decide (a.status = st))
    | none => r2
  let r4 := match f.fromDate with
    | some lo => r3.filter (fun a => Date.le lo a.date)
    | none => r3
  let r5 := match f.toDate with
    | some hi => r4.filter (fun a => Date.le a.date hi)
    | none => r4
  sortByDateDesc r5

/-- Method `MemStorage.getAttendanceByUser`: the user's records, optionally
restricted to a month (`date.startsWith(month)` on `YYYY-MM`, i.e. equality of
year and month), sorted by date descending. -/
def getAttendanceByUser (s : MemState) (userId : Nat) (month : Option (Nat × Nat)) :
    List Attendance :=
  let r0 := s.attendance.filter (fun a => decide (a.userId = userId))
  let r1 := match month with
    | some ym => r0.filter (fun a => decide (a.date.year = ym.1 ∧ a.date.month = ym.2))
    | none => r0
  sortByDateDesc r1

end MemStorage

/-- Error raised by the durable backend on a unique-index violation
(Mongo error code 11000). -/
inductive MongoErr where
  | duplicateKey
deriving DecidableEq, Repr

namespace MongoStorage

/-- Method `MongoStorage.createAttendance` against the collection `docs`.  The schema
declares `attendanceSchema.index({ userId: 1, date: 1 }, { unique: true })`,
so `save()` is rejected with a duplicate-key error whenever a document with
the same (userId, date) already exists; otherwise the document is inserted. -/
def createAttendance (docs : List Attendance) (newId : Nat) (ins : InsertAttendance) :
    Except MongoErr (List Attendance × Attendance) :=
  if docs.any (fun a => decide (a.userId = ins.userId ∧ a.date = ins.date)) then
    .error .duplicateKey
  else
    let a := mkAttendance newId ins
    .ok (docs ++ [a], a)

/-- The `date` condition of the query built by `MongoStorage.getAllAttendance`:
`query.date = filters.date` is assigned first, but when `from` or `to` is
present the assignment `query.date = {}` replaces it with a pure range
condition, discarding the equality. -/
def dateCond (f : AttFilters) (a : Attendance) : Bool :=
  if f.fromDate.isSome || f.toDate.isSome then
    (match f.fromDate with | some lo => Date.le lo a.date | none => true)
      && (match f.toDate with | some hi => Date.le a.date hi | none => true)
  else
    match f.date with
    | some d => decide (a.date = d)
    | none => true

/-- Method `MongoStorage.getAllAttendance`: one `find` over the built query document,
sorted by date descending (`.sort({ date: -1 })`). -/
def getAllAttendance (docs : List Attendance) (f : AttFilters) : List Attendance :=
  sortByDateDesc (docs.filter (fun a =>
    (match f.employeeId with | some e => decide (a.userId = e) | none => true)
      && (match f.status with | some st => decide (a.status = st) | none => true)
      && dateCond f a))

end MongoStorage

/-- The check-in classification
`hour > 9 || (hour === 9 && minute > 15) ? "late" : "present"`. -/
def checkInStatusHM (hour minute : Nat) : Status :=
  if 9 < hour ∨ (hour = 9 ∧ 15 < minute) then .late else .present

/-- Reading `now.getHours()` from the second-of-day of the clock reading. -/
def jsHours (secOfDay : Nat) : Nat := secOfDay / 3600

/-- Reading `now.getMinutes()` from the second-of-day of the clock reading. -/
def jsMinutes (secOfDay : Nat) : Nat := secOfDay % 3600 / 60

/-- Status assigned at check-in, as a function of the clock's second-of-day. -/
def checkInStatusOfSec (secOfDay : Nat) : Status :=
  checkInStatusHM (jsHours secOfDay) (jsMinutes secOfDay)

/-- The business errors returned by the check-in / check-out handlers. -/
inductive ApiError where
  | alreadyCheckedIn
  | noCheckInFound
  | alreadyCheckedOut
deriving DecidableEq, Repr

/-- Route `POST /api/attendance/checkin` over the in-memory store.  The clock
reading `now` supplies `today = getStartOfDay(now)`, its second-of-day
(feeding `getHours`/`getMinutes`) and its epoch-millisecond value
(`now.toISOString()` stored as the check-in time). -/
def checkin (s : MemState) (userId : Nat) (today : Date) (secOfDay : Nat)
    (nowMs : Int) : MemState × Except ApiError Attendance :=
  match MemStorage.getAttendanceByUserAndDate s userId today with
  | some _ => (s, .error .alreadyCheckedIn)
  | none =>
    let status := checkInStatusOfSec secOfDay
    let created := MemStorage.createAttendance s
      ⟨userId, today, some nowMs, none, status, none⟩
    (created.1, .ok created.2)

/-- Function `Math.round` on exact rationals: nearest integer, ties toward +infinity. -/
def jsRound (x : ℚ) : Int := ⌊x + 1/2⌋

/-- Route `POST /api/attendance/checkout` over the in-memory store.  When the
record's `checkInTime` is null the source would compute `NaN` hours (it uses
the non-null assertion `attendance.checkInTime!`); the embedding reads it with
a default of 0, and every claim about elapsed time assumes `checkInTime` is
set, which holds for every record the check-in handler creates.  The `.ok none`
branch mirrors `res.json(updated)` when `updateAttendance` finds no record
(unreachable here, since the record was just found by key). -/
def checkout (s : MemState) (userId : Nat) (today : Date) (nowMs : Int) :
    MemState × Except ApiError (Option Attendance) :=
  match MemStorage.getAttendanceByUserAndDate s userId today with
  | none => (s, .error .noCheckInFound)
  | some attendance =>
    if attendance.checkOutTime.isSome then
      (s, .error .alreadyCheckedOut)
    else
      let checkInMs := attendance.checkInTime.getD 0
      let totalHours : ℚ := ((nowMs - checkInMs : Int) : ℚ) / (1000 * 60 * 60)
      let status := if totalHours < 4 then Status.halfDay else attendance.status
      match MemStorage.updateAttendance s attendance.id
        ⟨nowMs, (jsRound (totalHours * 10) : ℚ) / 10, status⟩ with
      | some updated => (updated.1, .ok (some updated.2))
      | none => (s, .ok none)

/-- The response shape of `GET /api/attendance/my-summary`. -/
structure MonthlySummary where
  present : Nat
  absent : Nat
  late : Nat
  halfDay : Nat
  totalHours : ℚ
  workingDays : Nat
deriving DecidableEq, Repr

/-- The `totalHours` accumulation `if (r.totalHours) totalHours += r.totalHours`
(a stored value of 0 is JS-falsy and skipped, which does not change the sum). -/
def tallyHours (rs : List Attendance) : ℚ :=
  rs.foldl (fun acc r =>
    match r.totalHours with
    | some h => if h = 0 then acc else acc + h
    | none => acc) 0

/-- Quantity `daysToCount`: working days of the month up to `today` when the month is
the current month, else the full working-day count of the month. -/
def daysToCountFor (year month : Nat) (today : Date) : Nat :=
  if today.year = year ∧ today.month = month then
    workingDaysUpTo year month today.day
  else getWorkingDaysInMonth year month

/-- Route `GET /api/attendance/my-summary` for `userId` and month `(year, month)`,
with `today` the current clock date. -/
def getMySummary (s : MemState) (userId year month : Nat) (today : Date) :
    MonthlySummary :=
  let records := MemStorage.getAttendanceByUser s userId (some (year, month))
  let present := (records.filter (fun r => decide (r.status = .present))).length
  let late := (records.filter (fun r => decide (r.status = .late))).length
  let halfDay := (records.filter (fun r => decide (r.status = .halfDay))).length
  let totalHours := tallyHours records
  let daysToCount := daysToCountFor year month today
  let absent := (max 0 ((daysToCount : Int) - (present + late + halfDay))).toNat
  ⟨present, absent, late, halfDay, (jsRound (totalHours * 10) : ℚ) / 10, daysToCount⟩

/-- Source `getAllEmployees`: users with `role === "employee"`. -/
def getAllEmployees (users : List User) : List User :=
  users.filter (fun u => decide (u.role = .employee))

/-- The response shape of `GET /api/attendance/summary`. -/
structure OrgSummary where
  totalEmployees : Nat
  present : Nat
  late : Nat
  halfDay : Nat
  absent : Nat
deriving DecidableEq, Repr

/-- Route `GET /api/attendance/summary`: per-employee month records are tallied into
`totalPresent`/`totalLate`/`totalHalfDay`; `totalAbsent` is declared
(`let totalAbsent = 0`) and returned without ever being incremented. -/
def getOrgSummary (users : List User) (s : MemState) (year month : Nat) :
    OrgSummary :=
  let employees := getAllEmployees users
  let totalAbsent : Nat := 0
  let tally := employees.foldl (fun (acc : Nat × Nat × Nat) emp =>
    (MemStorage.getAttendanceByUser s emp.id (some (year, month))).foldl
      (fun acc2 r =>
        if r.status = .present then (acc2.1 + 1, acc2.2.1, acc2.2.2)
        else if r.status = .late then (acc2.1, acc2.2.1 + 1, acc2.2.2)
        else if r.status = .halfDay then (acc2.1, acc2.2.1, acc2.2.2 + 1)
        else acc2) acc) (0, 0, 0)
  ⟨employees.length, tally.1, tally.2.1, tally.2.2, totalAbsent⟩

/-- One entry of the manager dashboard's `departmentWise` array. -/
structure DeptStat where
  department : String
  present : Nat
  total : Nat
  percentage : ℚ
deriving DecidableEq, Repr

/-- The per-department aggregation of `GET /api/dashboard/manager`:
current-month records (fetched with a `from`/`to` range from the 1st to
today) restricted to the department's employees; percentage of present-or-late
records over headcount x working-days-to-date, guarded against a zero
denominator, rounded to 1 decimal. -/
def deptStat (employees : List User) (s : MemState) (dept : String)
    (year month : Nat) (today : Date) : DeptStat :=
  let deptEmployees := employees.filter (fun e => decide (e.department = dept))
  let monthRecords := MemStorage.getAllAttendance s
    ⟨none, none, none, some ⟨year, month, 1⟩, some today⟩
  let deptRecords := monthRecords.filter (fun r =>
    deptEmployees.any (fun e => decide (e.id = r.userId)))
  let presentCount := (deptRecords.filter (fun r =>
    decide (r.status = .present ∨ r.status = .late))).length
  let daysToCount := workingDaysUpTo year month today.day
  let totalPossible := deptEmployees.length * daysToCount
  let percentage : ℚ :=
    if 0 < totalPossible then (presentCount : ℚ) / (totalPossible : ℚ) * 100 else 0
  ⟨dept, presentCount, deptEmployees.length, (jsRound (percentage * 10) : ℚ) / 10⟩

/-- The spec's description of the stored hours, stated in its own words:
"(now − checkInTime) in hours, rounded to 1 decimal place (round-half-up)". -/
def specRoundTo1DecimalHalfUp (x : ℚ) : ℚ :=
  ((⌊x * 10 + 1/2⌋ : Int) : ℚ) / 10

/-- The classification reads only `getHours`/`getMinutes`: it returns `late`
exactly when the clock is at or past 09:16:00, seconds ignored. -/
theorem checkInStatusOfSec_late_iff (sec : Nat) :
    checkInStatusOfSec sec = Status.late ↔ 9 * 3600 + 16 * 60 ≤ sec := by
  unfold checkInStatusOfSec checkInStatusHM jsHours jsMinutes
  split_ifs with h
  · exact iff_of_true rfl (by omega)
  · constructor
    · intro hc
      exact absurd hc (by simp)
    · intro hle
      exact absurd (by omega : 9 < sec / 3600 ∨ (sec / 3600 = 9 ∧ 15 < sec % 3600 / 60)) h

/-- Complement of `checkInStatusOfSec_late_iff`. -/
theorem checkInStatusOfSec_present_iff (sec : Nat) :
    checkInStatusOfSec sec = Status.present ↔ sec < 9 * 3600 + 16 * 60 := by
  unfold checkInStatusOfSec checkInStatusHM jsHours jsMinutes
  split_ifs with h
  · constructor
    · intro hc
      exact absurd hc (by simp)
    · intro hlt
      exact absurd h (by omega)
  · exact iff_of_true rfl (by omega)

/-- A fixed sample date (Monday 2024-09-02) used by concrete witnesses. -/
def sampleDate : Date := ⟨2024, 9, 2⟩

/-- C1 (amended): the created record's status is `late` iff the clock's local
time-of-day is at least 09:16:00.  The handler reads only `getHours()` and
`getMinutes()`, so every second within the minute 09:15 (09:15:00 through
09:15:59) yields `present`; `late` begins at 09:16:00, not at 09:15:01. -/
theorem checkin_status_late_iff_after_0916 (s : MemState) (userId : Nat) (today : Date)
    (secOfDay : Nat) (nowMs : Int) (a : Attendance)
    (h : (checkin s userId today secOfDay nowMs).2 = .ok a) :
    (a.status = Status.late ↔ 9 * 3600 + 16 * 60 ≤ secOfDay) ∧
    (a.status = Status.present ↔ secOfDay < 9 * 3600 + 16 * 60) := by
  unfold checkin at h
  cases hf : MemStorage.getAttendanceByUserAndDate s userId today with
  | some r =>
    rw [hf] at h
    exact absurd h (by simp)
  | none =>
    rw [hf] at h
    simp only [MemStorage.createAttendance, Except.ok.injEq] at h
    have hstatus : a.status = checkInStatusOfSec secOfDay := by
      rw [← h]
      rfl
    rw [hstatus]
    exact ⟨checkInStatusOfSec_late_iff secOfDay, checkInStatusOfSec_present_iff secOfDay⟩

/-- Witness for C1's theorem at a check-in at exactly 09:15:00 (second-of-day
33300): the created record's status is `present`. -/
theorem checkin_status_late_iff_after_0916_witness :
    ((⟨0, 0, sampleDate, some 0, none, Status.present, none⟩ : Attendance).status
        = Status.late ↔ 9 * 3600 + 16 * 60 ≤ 9 * 3600 + 15 * 60) ∧
    ((⟨0, 0, sampleDate, some 0, none, Status.present, none⟩ : Attendance).status
        = Status.present ↔ 9 * 3600 + 15 * 60 < 9 * 3600 + 16 * 60) :=
  checkin_status_late_iff_after_0916 memInit 0 sampleDate (9 * 3600 + 15 * 60) 0 _ rfl

/-- C1 counterexample: a check-in whose local time-of-day is 09:15:01 —
strictly after 09:15:00 — creates a record with status `present`, not `late`. -/
theorem checkin_at_091501_yields_present :
    (checkin memInit 0 sampleDate (9 * 3600 + 15 * 60 + 1) 0).2 =
      .ok (⟨0, 0, sampleDate, some 0, none, Status.present, none⟩ : Attendance) ∧
    9 * 3600 + 15 * 60 < 9 * 3600 + 15 * 60 + 1 :=
  ⟨rfl, by omega⟩

/-- C10: the organization-wide monthly summary returns `absent = 0` for every
roster, store and month: `totalAbsent` is initialized to zero and never
incremented. -/
theorem getOrgSummary_absent_zero (users : List User) (s : MemState) (year month : Nat) :
    (getOrgSummary users s year month).absent = 0 := rfl

/-- C4 (amended): the durable backend enforces (userId, date) uniqueness at
the storage layer — its create fails with a duplicate-key error exactly when a
record with the same key exists — but the in-memory backend does not: its
create always appends a new record, whatever keys are already present. -/
theorem createAttendance_duplicate_enforcement (docs : List Attendance) (newId : Nat)
    (s : MemState) (ins : InsertAttendance) :
    (MongoStorage.createAttendance docs newId ins = .error .duplicateKey ↔
      ∃ a ∈ docs, a.userId = ins.userId ∧ a.date = ins.date) ∧
    (MemStorage.createAttendance s ins).1.attendance
      = s.attendance ++ [mkAttendance s.nextId ins] := by
  constructor
  · unfold MongoStorage.createAttendance
    split_ifs with h
    · simp only [List.any_eq_true, decide_eq_true_eq] at h
      exact iff_of_true rfl h
    · simp only [List.any_eq_true, decide_eq_true_eq] at h
      exact iff_of_false (by simp) h
  · rfl

/-- A sample insert for (userId 0, sampleDate). -/
def sampleIns : InsertAttendance := ⟨0, sampleDate, some 0, none, Status.present, none⟩

/-- The in-memory store already holding a record with key (0, sampleDate). -/
def dupState : MemState := (MemStorage.createAttendance memInit sampleIns).1

/-- C4 counterexample: calling the in-memory `createAttendance` for a
(userId, date) key that already exists does not fail — it succeeds and leaves
the store with two records under the same natural key. -/
theorem memCreate_duplicate_succeeds :
    ((MemStorage.createAttendance dupState sampleIns).1.attendance.filter
        (fun a => decide (a.userId = 0 ∧ a.date = sampleDate))).length = 2 ∧
    (dupState.attendance.filter
        (fun a => decide (a.userId = 0 ∧ a.date = sampleDate))).length = 1 :=
  ⟨rfl, rfl⟩

/-- The elapsed time computed at check-out:
`(now.getTime() - checkInTime.getTime()) / (1000 * 60 * 60)`. -/
def elapsedHours (nowMs t : Int) : ℚ :=
  ((nowMs - t : Int) : ℚ) / (1000 * 60 * 60)

/-- A record found by (userId, date) is in the store, so the id lookup done by
`updateAttendance` finds some record with that id. -/
theorem find_id_of_find_key (s : MemState) (u : Nat) (d : Date) (r : Attendance)
    (hfind : MemStorage.getAttendanceByUserAndDate s u d = some r) :
    ∃ existing, s.attendance.find? (fun a => decide (a.id = r.id)) = some existing := by
  have hmem : r ∈ s.attendance := List.mem_of_find?_eq_some hfind
  have hsome : (s.attendance.find? (fun a => decide (a.id = r.id))).isSome := by
    rw [List.find?_isSome]
    exact ⟨r, hmem, by simp⟩
  exact Option.isSome_iff_exists.mp hsome

/-- Shape of a successful check-out: the stored record is the found record
merged with the patch `{checkOutTime, totalHours, status}` computed from the
elapsed hours. -/
theorem checkout_success_shape (s : MemState) (u : Nat) (today : Date) (nowMs : Int)
    (r : Attendance) (hfind : MemStorage.getAttendanceByUserAndDate s u today = some r)
    (hout : r.checkOutTime = none) :
    ∃ existing, (checkout s u today nowMs).2 =
      .ok (some (applyPatch existing
        ⟨nowMs,
         ((jsRound ((elapsedHours nowMs (r.checkInTime.getD 0)) * 10) : Int) : ℚ) / 10,
         if elapsedHours nowMs (r.checkInTime.getD 0) < 4 then Status.halfDay
         else r.status⟩)) := by
  obtain ⟨existing, hex⟩ := find_id_of_find_key s u today r hfind
  refine ⟨existing, ?_⟩
  simp only [checkout, MemStorage.updateAttendance, hfind, hout, Option.isSome_none,
    Bool.false_eq_true, if_false, hex, elapsedHours]

/-- C3: at check-out, if the elapsed hours are strictly below 4 the stored
status becomes `half-day` regardless of the status set at check-in; if the
elapsed hours are at least 4 the check-in status is kept unchanged. -/
theorem checkout_halfday_downgrade (s : MemState) (u : Nat) (today : Date) (nowMs : Int)
    (r : Attendance) (t : Int)
    (hfind : MemStorage.getAttendanceByUserAndDate s u today = some r)
    (hout : r.checkOutTime = none) (hin : r.checkInTime = some t) :
    ∃ r2, (checkout s u today nowMs).2 = .ok (some r2) ∧
      (elapsedHours nowMs t < 4 → r2.status = Status.halfDay) ∧
      (4 ≤ elapsedHours nowMs t → r2.status = r.status) := by
  obtain ⟨existing, hshape⟩ := checkout_success_shape s u today nowMs r hfind hout
  rw [hin] at hshape
  simp only [Option.getD_some] at hshape
  refine ⟨_, hshape, ?_, ?_⟩
  · intro hlt
    simp only [applyPatch]
    rw [if_pos hlt]
  · intro hge
    simp only [applyPatch]
    rw [if_neg (not_lt.mpr hge)]

/-- Witness store holding one open record: user 0 checked in on `sampleDate`
at epoch-millisecond 0, status `present`, not yet checked out. -/
def outState : MemState :=
  ⟨[⟨0, 0, sampleDate, some 0, none, Status.present, none⟩], 1⟩

/-- Witness for C3's theorem: check-out 2 hours (7,200,000 ms) after check-in. -/
theorem checkout_halfday_downgrade_witness :
    ∃ r2, (checkout outState 0 sampleDate 7200000).2 = .ok (some r2) ∧
      (elapsedHours 7200000 0 < 4 → r2.status = Status.halfDay) ∧
      (4 ≤ elapsedHours 7200000 0 → r2.status = Status.present) :=
  checkout_halfday_downgrade outState 0 sampleDate 7200000
    ⟨0, 0, sampleDate, some 0, none, Status.present, none⟩ 0 rfl rfl rfl

/-- C7: check-out fails with `NoCheckInFound` when no record exists for
(userId, today) and with `AlreadyCheckedOut` when the record's check-out time
is already set, and in both failure cases the returned state is exactly the
input state — nothing is written. -/
theorem checkout_failures_leave_state_unchanged (s : MemState) (u : Nat) (today : Date)
    (nowMs : Int) :
    (MemStorage.getAttendanceByUserAndDate s u today = none →
      checkout s u today nowMs = (s, .error .noCheckInFound)) ∧
    (∀ r, MemStorage.getAttendanceByUserAndDate s u today = some r →
      r.checkOutTime.isSome = true →
      checkout s u today nowMs = (s, .error .alreadyCheckedOut)) := by
  constructor
  · intro h
    simp only [checkout, h]
  · intro r hr hout
    simp only [checkout, hr, hout, if_true]

/-- Witness store holding one completed record (already checked out). -/
def doneState : MemState :=
  ⟨[⟨0, 0, sampleDate, some 0, some 16200000, Status.present, some (9/2 : ℚ)⟩], 1⟩

/-- Witness for C7's theorem: check-out on an empty store, and check-out on a
record that is already checked out. -/
theorem checkout_failures_leave_state_unchanged_witness :
    checkout memInit 0 sampleDate 0 = (memInit, .error .noCheckInFound) ∧
    checkout doneState 0 sampleDate 99 = (doneState, .error .alreadyCheckedOut) :=
  ⟨(checkout_failures_leave_state_unchanged memInit 0 sampleDate 0).1 rfl,
   (checkout_failures_leave_state_unchanged doneState 0 sampleDate 99).2
     ⟨0, 0, sampleDate, some 0, some 16200000, Status.present, some (9/2 : ℚ)⟩ rfl rfl⟩

/-- C8: a successful check-out stores
`totalHours = Math.round(elapsed * 10) / 10`, which is exactly the spec's
"(now − checkInTime) in hours, rounded to 1 decimal place (round-half-up)":
the stored value is an integer number of tenths, lies within a half-tenth of
the exact elapsed hours, and ties (an exact odd multiple of 1/20) round up. -/
theorem checkout_totalHours_round_half_up (s : MemState) (u : Nat) (today : Date)
    (nowMs : Int) (r : Attendance) (t : Int)
    (hfind : MemStorage.getAttendanceByUserAndDate s u today = some r)
    (hout : r.checkOutTime = none) (hin : r.checkInTime = some t) :
    ∃ r2, (checkout s u today nowMs).2 = .ok (some r2) ∧
      r2.totalHours = some (specRoundTo1DecimalHalfUp (elapsedHours nowMs t)) ∧
      (∃ n : Int, specRoundTo1DecimalHalfUp (elapsedHours nowMs t) = (n : ℚ) / 10) ∧
      elapsedHours nowMs t - 1/20 < specRoundTo1DecimalHalfUp (elapsedHours nowMs t) ∧
      specRoundTo1DecimalHalfUp (elapsedHours nowMs t) ≤ elapsedHours nowMs t + 1/20 ∧
      (∀ n : Int, elapsedHours nowMs t * 10 = (n : ℚ) + 1/2 →
        specRoundTo1DecimalHalfUp (elapsedHours nowMs t) = ((n : ℚ) + 1) / 10) := by
  obtain ⟨existing, hshape⟩ := checkout_success_shape s u today nowMs r hfind hout
  rw [hin] at hshape
  simp only [Option.getD_some] at hshape
  refine ⟨_, hshape, ?_, ?_, ?_, ?_, ?_⟩
  · rfl
  · exact ⟨⌊elapsedHours nowMs t * 10 + 1/2⌋, rfl⟩
  · have h1 : elapsedHours nowMs t * 10 + 1/2 <
        ((⌊elapsedHours nowMs t * 10 + 1/2⌋ : Int) : ℚ) + 1 := Int.lt_floor_add_one _
    unfold specRoundTo1DecimalHalfUp
    linarith
  · have h2 : ((⌊elapsedHours nowMs t * 10 + 1/2⌋ : Int) : ℚ) ≤
        elapsedHours nowMs t * 10 + 1/2 := Int.floor_le _
    unfold specRoundTo1DecimalHalfUp
    linarith
  · intro n hn
    unfold specRoundTo1DecimalHalfUp
    rw [hn]
    rw [show ((n : ℚ) + 1/2) + 1/2 = ((n + 1 : Int) : ℚ) by push_cast; ring]
    rw [Int.floor_intCast]
    push_cast
    ring

/-- Witness for C8's theorem: check-out 4.5 hours (16,200,000 ms) after
check-in on the one-open-record store. -/
theorem checkout_totalHours_round_half_up_witness :
    ∃ r2, (checkout outState 0 sampleDate 16200000).2 = .ok (some r2) ∧
      r2.totalHours = some (specRoundTo1DecimalHalfUp (elapsedHours 16200000 0)) ∧
      (∃ n : Int, specRoundTo1DecimalHalfUp (elapsedHours 16200000 0) = (n : ℚ) / 10) ∧
      elapsedHours 16200000 0 - 1/20 < specRoundTo1DecimalHalfUp (elapsedHours 16200000 0) ∧
      specRoundTo1DecimalHalfUp (elapsedHours 16200000 0) ≤ elapsedHours 16200000 0 + 1/20 ∧
      (∀ n : Int, elapsedHours 16200000 0 * 10 = (n : ℚ) + 1/2 →
        specRoundTo1DecimalHalfUp (elapsedHours 16200000 0) = ((n : ℚ) + 1) / 10) :=
  checkout_totalHours_round_half_up outState 0 sampleDate 16200000
    ⟨0, 0, sampleDate, some 0, none, Status.present, none⟩ 0 rfl rfl rfl

/-- The natural-key invariant: no two records in the store share
(userId, date). -/
def KeyUnique (s : MemState) : Prop :=
  List.Pairwise (fun a b => ¬(a.userId = b.userId ∧ a.date = b.date)) s.attendance

/-- States reachable from the empty store through the two exposed mutating
operations (check-in and check-out), with arbitrary clock readings. -/
inductive Reachable : MemState → Prop where
  | init : Reachable memInit
  | checkinStep (s : MemState) (userId : Nat) (today : Date) (secOfDay : Nat)
      (nowMs : Int) : Reachable s → Reachable (checkin s userId today secOfDay nowMs).1
  | checkoutStep (s : MemState) (userId : Nat) (today : Date) (nowMs : Int) :
      Reachable s → Reachable (checkout s userId today nowMs).1

/-- Check-in preserves the natural-key invariant: it only creates a record
after the by-key lookup returned nothing. -/
theorem keyUnique_checkin (s : MemState) (userId : Nat) (today : Date)
    (secOfDay : Nat) (nowMs : Int) (h : KeyUnique s) :
    KeyUnique (checkin s userId today secOfDay nowMs).1 := by
  cases hf : MemStorage.getAttendanceByUserAndDate s userId today with
  | some r =>
    simpa only [checkin, hf] using h
  | none =>
    simp only [checkin, hf, MemStorage.createAttendance]
    unfold KeyUnique at h ⊢
    rw [List.pairwise_append]
    refine ⟨h, List.pairwise_singleton _ _, ?_⟩
    intro a ha b hb
    simp only [List.mem_singleton] at hb
    subst hb
    have hf2 := hf
    unfold MemStorage.getAttendanceByUserAndDate at hf2
    rw [List.find?_eq_none] at hf2
    have := hf2 a ha
    simpa using this
  
/-- Check-out preserves the natural-key invariant: the update rewrites a
record in place and never changes `userId` or `date`. -/
theorem keyUnique_checkout (s : MemState) (userId : Nat) (today : Date)
    (nowMs : Int) (h : KeyUnique s) :
    KeyUnique (checkout s userId today nowMs).1 := by
  cases hf : MemStorage.getAttendanceByUserAndDate s userId today with
  | none =>
    simpa only [checkout, hf] using h
  | some r =>
    by_cases hout : r.checkOutTime.isSome = true
    · simpa only [checkout, hf, hout, if_true] using h
    · rw [Bool.not_eq_true] at hout
      cases hex : s.attendance.find? (fun a => decide (a.id = r.id)) with
      | none =>
        simpa only [checkout, MemStorage.updateAttendance, hf, hout, Bool.false_eq_true,
          if_false, hex] using h
      | some existing =>
        simp only [checkout, MemStorage.updateAttendance, hf, hout, Bool.false_eq_true,
          if_false, hex]
        unfold KeyUnique at h ⊢
        rw [List.pairwise_map]
        refine h.imp ?_
        intro a b hab
        have hu : ∀ (x : Attendance) (p0 : AttendancePatch),
            (if x.id = r.id then applyPatch x p0 else x).userId = x.userId := by
          intro x p0
          split <;> rfl
        have hd : ∀ (x : Attendance) (p0 : AttendancePatch),
            (if x.id = r.id then applyPatch x p0 else x).date = x.date := by
          intro x p0
          split <;> rfl
        rw [hu, hd, hu, hd]
        exact hab

/-- C6: in every state reachable through the exposed operations, at most one
record exists per (userId, date); and when a record for (userId, d) exists, a
second check-in for that key fails with the already-checked-in error and
returns the state unchanged. -/
theorem reachable_key_unique_and_second_checkin_rejected (s : MemState)
    (hs : Reachable s) :
    KeyUnique s ∧
    ∀ (userId : Nat) (d : Date) (r : Attendance) (secOfDay : Nat) (nowMs : Int),
      MemStorage.getAttendanceByUserAndDate s userId d = some r →
      checkin s userId d secOfDay nowMs = (s, .error .alreadyCheckedIn) := by
  constructor
  · induction hs with
    | init => exact List.Pairwise.nil
    | checkinStep s2 userId today secOfDay nowMs _ ih =>
      exact keyUnique_checkin s2 userId today secOfDay nowMs ih
    | checkoutStep s2 userId today nowMs _ ih =>
      exact keyUnique_checkout s2 userId today nowMs ih
  · intro userId d r secOfDay nowMs hfind
    simp only [checkin, hfind]

/-- The store after a single check-in by user 0 on `sampleDate` at 09:15:00. -/
def oneRecState : MemState := (checkin memInit 0 sampleDate 33300 0).1

/-- Witness for C6's theorem: the one-record state is reachable and key-unique,
and a second check-in by the same user on the same date is rejected without
changing the state. -/
theorem reachable_key_unique_and_second_checkin_rejected_witness :
    KeyUnique oneRecState ∧
    checkin oneRecState 0 sampleDate 33301 5 = (oneRecState, .error .alreadyCheckedIn) := by
  have h := reachable_key_unique_and_second_checkin_rejected oneRecState
    (Reachable.checkinStep memInit 0 sampleDate 33300 0 Reachable.init)
  exact ⟨h.1, h.2 0 sampleDate
    (mkAttendance 0 ⟨0, sampleDate, some 0, none, Status.present, none⟩) 33301 5 rfl⟩

/-- Totality of `Date.le`. -/
theorem Date.le_total_bool (a b : Date) : Date.le a b = true ∨ Date.le b a = true := by
  unfold Date.le
  split_ifs <;> first
  | (simp_all; omega)
  | simp_all

/-- Transitivity of `Date.le`. -/
theorem Date.le_trans_bool (a b c : Date) (h1 : Date.le a b = true)
    (h2 : Date.le b c = true) : Date.le a c = true := by
  unfold Date.le at h1 h2 ⊢
  split_ifs at h1 h2 ⊢ <;> simp_all <;> omega

instance : IsTotal Attendance dateDescRel :=
  ⟨fun a b => Date.le_total_bool b.date a.date⟩

instance : IsTrans Attendance dateDescRel :=
  ⟨fun a b c h1 h2 => Date.le_trans_bool c.date b.date a.date h2 h1⟩

/-- C2 (amended): the monthly summary satisfies
`present + late + halfDay + absent = max(workingDays, present + late + halfDay)`;
in particular the claimed identity `present + late + halfDay + absent ==
workingDays` holds exactly when the counted records do not outnumber
`daysToCount` (records on non-working days, e.g. weekend check-ins, push the
left side above `workingDays` because `absent` is clamped at zero). -/
theorem getMySummary_sum_eq_max (s : MemState) (userId year month : Nat) (today : Date) :
    (getMySummary s userId year month today).present
      + (getMySummary s userId year month today).late
      + (getMySummary s userId year month today).halfDay
      + (getMySummary s userId year month today).absent
    = max (getMySummary s userId year month today).workingDays
        ((getMySummary s userId year month today).present
          + (getMySummary s userId year month today).late
          + (getMySummary s userId year month today).halfDay) := by
  unfold getMySummary
  dsimp only
  omega

/-- A store holding two records of user 0 in September 2024: one on Sunday
2024-09-01 (a weekend check-in) and one on Monday 2024-09-02, both `present`. -/
def sampleTwoRecState : MemState :=
  ⟨[⟨0, 0, ⟨2024, 9, 1⟩, some 0, none, Status.present, none⟩,
    ⟨1, 0, ⟨2024, 9, 2⟩, some 0, none, Status.present, none⟩], 2⟩

/-- C2 counterexample: with `today` = Monday 2024-09-02 as the current date,
`daysToCount` = 1 (the only weekday so far is Sep 2), but the user has two
counted records, so present + late + halfDay + absent = 2 + 0 = 2 while the
reported `workingDays` is 1 — the claimed identity fails. -/
theorem getMySummary_sum_counterexample :
    (getMySummary sampleTwoRecState 0 2024 9 sampleDate).present
      + (getMySummary sampleTwoRecState 0 2024 9 sampleDate).late
      + (getMySummary sampleTwoRecState 0 2024 9 sampleDate).halfDay
      + (getMySummary sampleTwoRecState 0 2024 9 sampleDate).absent = 2 ∧
    (getMySummary sampleTwoRecState 0 2024 9 sampleDate).workingDays = 1 :=
  ⟨rfl, rfl⟩

/-- C5 (amended): the in-memory `getAllAttendance` returns exactly the records
satisfying the conjunction (AND) of all supplied filters, sorted by date
descending; the durable backend agrees whenever the specific `date` filter is
not combined with a `from`/`to` range (when they are combined, the query built
by the source overwrites the date-equality condition with the range). -/
theorem getAllAttendance_conjunctive (s : MemState) (docs : List Attendance)
    (f : AttFilters) (x : Attendance) :
    (x ∈ MemStorage.getAllAttendance s f ↔ x ∈ s.attendance ∧ matchesAll f x = true) ∧
    List.Sorted dateDescRel (MemStorage.getAllAttendance s f) ∧
    (f.date = none ∨ (f.fromDate = none ∧ f.toDate = none) →
      (x ∈ MongoStorage.getAllAttendance docs f ↔ x ∈ docs ∧ matchesAll f x = true)) := by
  refine ⟨?_, ?_, ?_⟩
  · unfold MemStorage.getAllAttendance sortByDateDesc
    rw [List.mem_insertionSort]
    obtain ⟨fe, fd, fs, ff, ft⟩ := f
    cases fe <;> cases fd <;> cases fs <;> cases ff <;> cases ft <;>
      simp [matchesAll, List.mem_filter, and_assoc] <;> tauto
  · unfold MemStorage.getAllAttendance sortByDateDesc
    exact List.sorted_insertionSort dateDescRel _
  · obtain ⟨fe, fd, fs, ff, ft⟩ := f
    intro hcase
    unfold MongoStorage.getAllAttendance MongoStorage.dateCond sortByDateDesc
    rw [List.mem_insertionSort]
    simp only at hcase
    rcases hcase with hd | ⟨hf, ht⟩
    · subst hd
      cases fe <;> cases fs <;> cases ff <;> cases ft <;>
        simp [matchesAll, List.mem_filter, and_assoc]
    · subst hf
      subst ht
      cases fe <;> cases fd <;> cases fs <;>
        simp [matchesAll, List.mem_filter, and_assoc] <;> tauto

/-- Witness for C5's theorem: the Mongo proviso applied to a store whose one
record is returned by the unfiltered query. -/
theorem getAllAttendance_conjunctive_witness :
    (⟨0, 0, sampleDate, some 0, none, Status.present, none⟩ ∈
        MongoStorage.getAllAttendance
          [⟨0, 0, sampleDate, some 0, none, Status.present, none⟩]
          ⟨none, none, none, none, none⟩ ↔
      (⟨0, 0, sampleDate, some 0, none, Status.present, none⟩ : Attendance) ∈
          [(⟨0, 0, sampleDate, some 0, none, Status.present, none⟩ : Attendance)] ∧
        matchesAll ⟨none, none, none, none, none⟩
          ⟨0, 0, sampleDate, some 0, none, Status.present, none⟩ = true) :=
  (getAllAttendance_conjunctive memInit
    [⟨0, 0, sampleDate, some 0, none, Status.present, none⟩]
    ⟨none, none, none, none, none⟩
    ⟨0, 0, sampleDate, some 0, none, Status.present, none⟩).2.2 (Or.inl rfl)

/-- C5 counterexample: combining the specific `date` filter (2024-09-02) with
a `from` range (2024-09-01) on the durable backend returns a record dated
2024-09-01 even though it fails the conjunction of the supplied filters — the
range overwrites the date-equality condition. -/
theorem mongo_date_filter_overridden :
    MongoStorage.getAllAttendance
        [⟨0, 0, ⟨2024, 9, 1⟩, some 0, none, Status.present, none⟩]
        ⟨none, some ⟨2024, 9, 2⟩, none, some ⟨2024, 9, 1⟩, none⟩
      = [⟨0, 0, ⟨2024, 9, 1⟩, some 0, none, Status.present, none⟩] ∧
    matchesAll ⟨none, some ⟨2024, 9, 2⟩, none, some ⟨2024, 9, 1⟩, none⟩
        ⟨0, 0, ⟨2024, 9, 1⟩, some 0, none, Status.present, none⟩ = false :=
  ⟨rfl, rfl⟩

/-- Bounds for the guarded-and-rounded percentage
`Math.round((totalPossible > 0 ? presentCount / totalPossible * 100 : 0) * 10) / 10`. -/
theorem pct_round_bounds (cnt tp : Nat) :
    0 ≤ ((jsRound ((if 0 < tp then (cnt : ℚ) / (tp : ℚ) * 100 else 0) * 10) : Int) : ℚ) / 10 ∧
    (tp = 0 →
      ((jsRound ((if 0 < tp then (cnt : ℚ) / (tp : ℚ) * 100 else 0) * 10) : Int) : ℚ) / 10 = 0) ∧
    (cnt ≤ tp →
      ((jsRound ((if 0 < tp then (cnt : ℚ) / (tp : ℚ) * 100 else 0) * 10) : Int) : ℚ) / 10 ≤ 100) := by
  have hp : (0 : ℚ) ≤ (if 0 < tp then (cnt : ℚ) / (tp : ℚ) * 100 else 0) := by
    split_ifs with htp
    · positivity
    · exact le_refl 0
  refine ⟨?_, ?_, ?_⟩
  · have hfl : (0 : Int) ≤ jsRound ((if 0 < tp then (cnt : ℚ) / (tp : ℚ) * 100 else 0) * 10) := by
      unfold jsRound
      apply Int.floor_nonneg.mpr
      nlinarith
    have : (0 : ℚ) ≤ ((jsRound ((if 0 < tp then (cnt : ℚ) / (tp : ℚ) * 100 else 0) * 10) : Int) : ℚ) := by
      exact_mod_cast hfl
    linarith
  · intro h0
    subst h0
    norm_num [jsRound]
  · intro hle
    have h100 : (if 0 < tp then (cnt : ℚ) / (tp : ℚ) * 100 else 0) ≤ 100 := by
      split_ifs with htp
      · have htpq : (0 : ℚ) < (tp : ℚ) := by exact_mod_cast htp
        have hdiv : (cnt : ℚ) / (tp : ℚ) ≤ 1 := by
          rw [div_le_one htpq]
          exact_mod_cast hle
        linarith
      · norm_num
    have hfl : jsRound ((if 0 < tp then (cnt : ℚ) / (tp : ℚ) * 100 else 0) * 10) ≤ 1000 := by
      unfold jsRound
      have hmono : ⌊(if 0 < tp then (cnt : ℚ) / (tp : ℚ) * 100 else 0) * 10 + 1/2⌋ ≤
          ⌊(1000 : ℚ) + 1/2⌋ := Int.floor_le_floor (by nlinarith)
      have hval : ⌊(1000 : ℚ) + 1/2⌋ = 1000 := by norm_num
      omega
    have : ((jsRound ((if 0 < tp then (cnt : ℚ) / (tp : ℚ) * 100 else 0) * 10) : Int) : ℚ)
        ≤ 1000 := by exact_mod_cast hfl
    linarith

/-- C9 (amended): the department percentage reported by the manager dashboard
is always nonnegative, and equals 0 when the department headcount is 0 (the
zero-denominator guard); it is at most 100 whenever the department's counted
present-or-late records do not exceed headcount x working-days-to-date, but it
can exceed 100 when they do (e.g. records on non-working days). -/
theorem deptStat_percentage_bounds (employees : List User) (s : MemState) (dept : String)
    (year month : Nat) (today : Date) :
    0 ≤ (deptStat employees s dept year month today).percentage ∧
    ((deptStat employees s dept year month today).total = 0 →
      (deptStat employees s dept year month today).percentage = 0) ∧
    ((deptStat employees s dept year month today).present ≤
        (deptStat employees s dept year month today).total *
          workingDaysUpTo year month today.day →
      (deptStat employees s dept year month today).percentage ≤ 100) := by
  have h := pct_round_bounds
    (((MemStorage.getAllAttendance s
          ⟨none, none, none, some ⟨year, month, 1⟩, some today⟩).filter
        (fun r => (employees.filter (fun e => decide (e.department = dept))).any
          (fun e => decide (e.id = r.userId)))).filter
      (fun r => decide (r.status = .present ∨ r.status = .late))).length
    ((employees.filter (fun e => decide (e.department = dept))).length *
      workingDaysUpTo year month today.day)
  refine ⟨h.1, ?_, ?_⟩
  · intro h0
    have hlen : (employees.filter (fun e => decide (e.department = dept))).length = 0 := h0
    exact h.2.1 (by rw [hlen, Nat.zero_mul])
  · intro hle
    exact h.2.2 hle

/-- The roster used by the C9 concrete inputs: one Engineering employee. -/
def c9Employees : List User := [⟨0, Role.employee, "Engineering"⟩]

/-- Witness for C9's theorem: the "Sales" department of the sample roster has
headcount 0, so its percentage is 0 (and within bounds). -/
theorem deptStat_percentage_bounds_witness :
    0 ≤ (deptStat c9Employees sampleTwoRecState "Sales" 2024 9 sampleDate).percentage ∧
    (deptStat c9Employees sampleTwoRecState "Sales" 2024 9 sampleDate).percentage = 0 ∧
    (deptStat c9Employees sampleTwoRecState "Sales" 2024 9 sampleDate).percentage ≤ 100 := by
  have h := deptStat_percentage_bounds c9Employees sampleTwoRecState "Sales" 2024 9 sampleDate
  exact ⟨h.1, h.2.1 (by decide), h.2.2 (by decide)⟩

/-- C9 counterexample: one Engineering employee, records on Sunday 2024-09-01
and Monday 2024-09-02 (both present), today = 2024-09-02.  Working days to
date = 1 and headcount = 1, but 2 present-or-late records are counted, so the
reported percentage is 200 — outside [0, 100]. -/
theorem deptStat_percentage_counterexample :
    (deptStat c9Employees sampleTwoRecState "Engineering" 2024 9 sampleDate).percentage
      = 200 ∧
    ¬ ((deptStat c9Employees sampleTwoRecState "Engineering" 2024 9 sampleDate).percentage
      ≤ 100) := by
  have hval : (deptStat c9Employees sampleTwoRecState "Engineering" 2024 9 sampleDate).percentage
      = ((jsRound (((2 : Nat) : ℚ) / ((1 : Nat) : ℚ) * 100 * 10) : Int) : ℚ) / 10 := rfl
  rw [hval]
  unfold jsRound
  norm_num
